import Mathlib

/-!
Verification development for the indexer action queue and allocation
lifecycle manager.

The definitions below are a shallow embedding of the TypeScript sources:

* `ActionManager.executeActions`, `ActionManager.takeAction` (action
  execution coordinator and dispatch),
* the GraphQL resolvers `queueActions`, `cancelActions`, `approveActions`
  (action queue state machine),
* `AllocationManager.allocate`, `unallocate`, `reallocate` (allocation
  lifecycle manager), modelled against an explicit chain environment and
  an effect trace,
* `buildActionInput` / `validateActionInput` (agent-side input building
  and validation).

Machine-level collaborators (contracts, transaction manager, network
monitor, ABI event decoding) are abstracted as an environment record
`ChainEnv`; all chain reads and writes performed by the lifecycle manager
are recorded in an explicit `Effect` trace so that "no chain call / no
side effect" claims are statable.
-/

namespace Indexer

/-- Statuses of an action in the queue, mirroring the `ActionStatus`
TypeScript enum. -/
inductive ActionStatus where
  | QUEUED
  | APPROVED
  | PENDING
  | SUCCESS
  | FAILED
  | CANCELED
deriving DecidableEq, Repr

/-- An action record as persisted by the store.  The `type` field is kept
as a string because the TypeScript `ActionType` enum members are the
strings "allocate", "unallocate", "reallocate" and "collect", and the
dispatch code compares the runtime string value. -/
structure Action where
  id : Nat
  type : String
  deploymentID : Option String := none
  allocationID : Option String := none
  amount : Option String := none
  poi : Option String := none
  force : Option Bool := none
  source : String := ""
  reason : String := ""
  priority : Nat := 0
  status : ActionStatus
deriving DecidableEq, Repr

/-- The string values of the `ActionType` TypeScript enum. -/
def ActionType.ALLOCATE : String := "allocate"

def ActionType.UNALLOCATE : String := "unallocate"

def ActionType.REALLOCATE : String := "reallocate"

def ActionType.COLLECT : String := "collect"

/-- `{ a with status := s }`, the effect of a sequelize
`Action.update({status: s}, ...)` on one matching row. -/
def setStatus (s : ActionStatus) (a : Action) : Action :=
  { a with status := s }

/-- `models.Action.update({status := s}, {where: {id := i}})` applied to the
whole store: every row whose id matches is updated. -/
def updateWhereId (store : List Action) (i : Nat) (s : ActionStatus) :
    List Action :=
  store.map (fun a => if a.id = i then setStatus s a else a)

/-- The rows returned by a sequelize update with `returning: true`:
the matching rows, with the patch applied. -/
def returningWhereId (store : List Action) (i : Nat) (s : ActionStatus) :
    List Action :=
  (store.filter (fun a => a.id = i)).map (setStatus s)

/-- State threaded through `executeActions`: the action store plus the
local `updatedActions` array that the function finally returns. -/
structure ExecState where
  store : List Action
  updatedActions : List Action
deriving DecidableEq, Repr

/-- The status written back for one action: `SUCCESS` when
`takeAction` returned normally, `FAILED` when it threw.  The dispatch
outcome is abstracted as a boolean oracle over the action record. -/
def execOutcome (exec : Action → Bool) (a : Action) : ActionStatus :=
  if exec a then ActionStatus.SUCCESS else ActionStatus.FAILED

/-- One iteration of the per-action loop in
`ActionManager.executeActions`: run `takeAction`, write `SUCCESS` or
`FAILED` back by id, and evaluate
`updatedActions.concat(updatedAction)`.  JavaScript `Array.concat`
returns a fresh array without mutating its receiver, and the source does
not assign the result, so `updatedActions` is left unchanged — the
discarded value is kept here as the let-bound `_`. -/
def execStep (exec : Action → Bool) (st : ExecState) (a : Action) :
    ExecState :=
  let s := execOutcome exec a
  let updatedAction := returningWhereId st.store a.id s
  let _ := st.updatedActions ++ updatedAction
  { store := updateWhereId st.store a.id s,
    updatedActions := st.updatedActions }

/-- `ActionManager.executeActions(actionIDs, force)` over a store
snapshot.  Unless `force` is set, phase 1 executes every currently
`APPROVED` action; phase 2 then executes every currently `QUEUED` action
whose id is listed in `actionIDs`.  The result carries the final store
and the list the function returns. -/
def executeActions (exec : Action → Bool) (store : List Action)
    (actionIDs : List Nat) (force : Bool) : ExecState :=
  let st0 : ExecState := { store := store, updatedActions := [] }
  let st1 :=
    if force then st0
    else
      let approvedActions :=
        store.filter (fun a => a.status = ActionStatus.APPROVED)
      approvedActions.foldl (execStep exec) st0
  let queuedActionsSpecified :=
    (st1.store.filter (fun a => a.status = ActionStatus.QUEUED)).filter
      (fun a => actionIDs.contains a.id)
  queuedActionsSpecified.foldl (execStep exec) st1

/-- A single call into the allocation lifecycle manager, as produced by
`ActionManager.takeAction`. -/
inductive LifecycleCall where
  | allocateCall (deploymentID : Option String) (amount : Option String)
  | unallocateCall (allocationID : Option String) (poi : Option String)
      (force : Bool)
  | reallocateCall (allocationID : Option String) (poi : Option String)
      (amount : Option String) (force : Bool)
  | collectCall (allocationID : Option String)
deriving DecidableEq, Repr

/-- `ActionManager.takeAction`: maps an action to the allocation-manager
call it dispatches.  The source is an if/else-if chain over
`action.type` with no final else branch: when no branch matches, the
function returns `undefined` without raising an error, modelled as
`none`.  `poi` is passed through with null mapped to undefined, and
`force` defaults to `false` when null. -/
def takeAction (a : Action) : Option LifecycleCall :=
  if a.type = ActionType.ALLOCATE then
    some (LifecycleCall.allocateCall a.deploymentID a.amount)
  else if a.type = ActionType.UNALLOCATE then
    some (LifecycleCall.unallocateCall a.allocationID a.poi
      (a.force.getD false))
  else if a.type = ActionType.REALLOCATE then
    some (LifecycleCall.reallocateCall a.allocationID a.poi a.amount
      (a.force.getD false))
  else if a.type = ActionType.COLLECT then
    some (LifecycleCall.collectCall a.allocationID)
  else
    none

/-- The `cancelActions` resolver: sets `status = CANCELED` on every row
whose id is listed, with no restriction on the current status; errors
only when zero rows were affected.  Returns the new store together with
the rows the resolver returns. -/
def cancelActions (store : List Action) (actionIDs : List Nat) :
    Except String (List Action × List Action) :=
  let canceledActions :=
    (store.filter (fun a => actionIDs.contains a.id)).map
      (setStatus ActionStatus.CANCELED)
  if canceledActions.length = 0 then
    Except.error "0 action items updated in the queue to status = CANCELED"
  else
    Except.ok
      (store.map (fun a =>
        if actionIDs.contains a.id then setStatus ActionStatus.CANCELED a
        else a),
       canceledActions)

/-- The `approveActions` resolver: sets `status = APPROVED` on every row
whose id is listed, with no restriction on the current status; errors
only when zero rows were affected. -/
def approveActions (store : List Action) (actionIDs : List Nat) :
    Except String (List Action × List Action) :=
  let updatedActions :=
    (store.filter (fun a => actionIDs.contains a.id)).map
      (setStatus ActionStatus.APPROVED)
  if updatedActions.length = 0 then
    Except.error "0 action items updated in the queue to status = APPROVED"
  else
    Except.ok
      (store.map (fun a =>
        if actionIDs.contains a.id then setStatus ActionStatus.APPROVED a
        else a),
       updatedActions)

/-- An `ActionInput` as submitted to the `queueActions` mutation. -/
structure ActionInput where
  type : String
  deploymentID : Option String := none
  allocationID : Option String := none
  amount : Option String := none
  poi : Option String := none
  force : Option Bool := none
  source : String
  reason : String
  status : ActionStatus
  priority : Nat
deriving DecidableEq, Repr

/-- The row persisted for one input by `models.Action.bulkCreate`, with
the id assigned by the store. -/
def inputToAction (id : Nat) (inp : ActionInput) : Action :=
  { id := id, type := inp.type, deploymentID := inp.deploymentID,
    allocationID := inp.allocationID, amount := inp.amount,
    poi := inp.poi, force := inp.force, source := inp.source,
    reason := inp.reason, priority := inp.priority, status := inp.status }

/-- The `queueActions` resolver: a plain
`models.Action.bulkCreate(actions, {returning: true})`.  Ids are
assigned sequentially by the store starting at `nextId`; no per-type
validation is performed and the status is taken from the input as given.
Returns the new store, the next free id and the persisted rows. -/
def queueActions (store : List Action) (nextId : Nat) :
    List ActionInput → List Action × Nat × List Action
  | [] => (store, nextId, [])
  | inp :: rest =>
    let a := inputToAction nextId inp
    let r := queueActions (store ++ [a]) (nextId + 1) rest
    (r.1, r.2.1, a :: r.2.2)

/-- The generic positional parameters of the `actions queue` CLI command.
All four are optional at runtime: `target` is typed `string` in the
source but is destructured from the argument array and can be
undefined. -/
structure GenericActionInputParams where
  target : Option String := none
  param1 : Option String := none
  param2 : Option String := none
  param3 : Option String := none
deriving DecidableEq, Repr

/-- Field lookup on `GenericActionInputParams` by field name, as the
spread `{ ...actionParams }` record is indexed in the validator. -/
def getParam (p : GenericActionInputParams) (f : String) : Option String :=
  if f = "target" then p.target
  else if f = "param1" then p.param1
  else if f = "param2" then p.param2
  else if f = "param3" then p.param3
  else none

/-- Modelled from the spec: `validateRequiredParams` is imported from
`command-helpers`, whose source is not part of this corpus.  Per the
spec it "fails with a validation error listing every missing required
field": the error enumerates exactly the required parameters that are
undefined in the given params object. -/
def validateRequiredParams (paramsObject : GenericActionInputParams)
    (requiredParams : List String) : Except (List String) Unit :=
  let missingFields :=
    requiredParams.filter (fun f => (getParam paramsObject f).isNone)
  if missingFields.isEmpty then Except.ok () else Except.error missingFields

/-- The TypeScript `ActionType` enum as the closed type taken by
`validateActionInput` and `buildActionInput`. -/
inductive ActionTy where
  | ALLOCATE
  | UNALLOCATE
  | REALLOCATE
  | COLLECT
deriving DecidableEq, Repr

/-- The string value of each `ActionType` enum member. -/
def ActionTy.toStr : ActionTy → String
  | .ALLOCATE => ActionType.ALLOCATE
  | .UNALLOCATE => ActionType.UNALLOCATE
  | .REALLOCATE => ActionType.REALLOCATE
  | .COLLECT => ActionType.COLLECT

/-- The `requiredFields` list built by `validateActionInput` for each
action type. -/
def requiredFieldsOf : ActionTy → List String
  | .ALLOCATE => ["target", "param1"]
  | .UNALLOCATE => ["target"]
  | .REALLOCATE => ["target", "param1"]
  | .COLLECT => ["target"]

/-- `validateActionInput`: checks the per-type required fields via
`validateRequiredParams`. -/
def validateActionInput (ty : ActionTy)
    (actionParams : GenericActionInputParams) : Except (List String) Unit :=
  validateRequiredParams actionParams (requiredFieldsOf ty)

/-- `buildActionInput`: validates the generic params and then builds the
typed `ActionInput` for the given action type.  For `UNALLOCATE` the
`force` flag is `param2 === 'true'`; for `REALLOCATE` it is
`param3 === 'true'`. -/
def buildActionInput (ty : ActionTy)
    (actionParams : GenericActionInputParams) (source reason : String)
    (status : ActionStatus) (priority : Nat) :
    Except (List String) ActionInput :=
  match validateActionInput ty actionParams with
  | Except.error e => Except.error e
  | Except.ok _ =>
    match ty with
    | .ALLOCATE =>
      Except.ok
        { type := ActionTy.toStr ty,
          deploymentID := actionParams.target,
          amount := actionParams.param1,
          source := source, reason := reason, status := status,
          priority := priority }
    | .UNALLOCATE =>
      Except.ok
        { type := ActionTy.toStr ty,
          allocationID := actionParams.target,
          poi := actionParams.param1,
          force := some (decide (actionParams.param2 = some "true")),
          source := source, reason := reason, status := status,
          priority := priority }
    | .REALLOCATE =>
      Except.ok
        { type := ActionTy.toStr ty,
          allocationID := actionParams.target,
          amount := actionParams.param1,
          poi := actionParams.param2,
          force := some (decide (actionParams.param3 = some "true")),
          source := source, reason := reason, status := status,
          priority := priority }
    | .COLLECT =>
      Except.ok
        { type := ActionTy.toStr ty,
          allocationID := actionParams.target,
          source := source, reason := reason, status := status,
          priority := priority }

/-- An on-chain allocation as read from the network monitor or the
network subgraph, restricted to the fields the lifecycle manager
consults. -/
structure Allocation where
  id : String
  deploymentID : String
  allocatedTokens : Int
  createdAtEpoch : Nat
deriving DecidableEq, Repr

/-- A raw log entry of a transaction receipt. -/
structure Event where
  topics : List String
  data : String
deriving DecidableEq, Repr

/-- A confirmed transaction receipt: the list of raw events. -/
structure Receipt where
  events : List Event
deriving DecidableEq, Repr

/-- Result of `transactionManager.executeTransaction`: a receipt, or one
of the `paused` / `unauthorized` sentinels. -/
inductive TxOutcome where
  | paused
  | unauthorized
  | receipt (r : Receipt)
deriving DecidableEq, Repr

/-- The decoded fields of an `AllocationCreated` event. -/
structure CreatedEventFields where
  allocationID : String
  tokens : Int
  epoch : Nat
deriving DecidableEq, Repr

/-- The decoded fields of an `AllocationClosed` event. -/
structure ClosedEventFields where
  allocationID : String
  tokens : Int
  epoch : Nat
deriving DecidableEq, Repr

/-- Chain reads, chain writes and store side effects performed by the
allocation lifecycle manager, in execution order. -/
inductive Effect where
  | readEpoch
  | readCapacity
  | ensureSubgraph (deploymentID : String)
  | readAllocationState (allocationID : String)
  | submitAllocateFrom (allocationID : String) (amount : Int)
      (proof : String)
  | submitCloseAllocation (allocationID : String) (poi : String)
  | submitCloseAndAllocate (closedID : String) (poi : String)
      (newID : String) (amount : Int) (proof : String)
  | rememberAllocations (allocationIDs : List String)
  | collectReceipts (allocationID : String)
  | upsertRule (identifier : String) (decisionBasis : String)
      (amount : Option String)
deriving DecidableEq, Repr

/-- Failure cases of the allocation lifecycle manager.  `ie015` wraps
the error with which the `unallocate` catch block rethrows. -/
inductive AllocErr where
  | activeAllocationExists (deploymentID : String)
  | invalidAmountNegative
  | invalidAmountZero
  | insufficientCapacity
  | allocationExistsOnchain (allocationID : String)
  | txPaused
  | txUnauthorized
  | eventMissing (eventName : String)
  | allocationTooYoung (allocationID : String)
  | allocationNotActive (allocationID : String)
  | noActiveAllocation (allocationID : String)
  | poiUnresolved (message : String)
  | queryFailed
  | ie015 (inner : AllocErr)
deriving DecidableEq, Repr

/-- The external collaborators of the allocation lifecycle manager:
epoch manager and staking contract reads, the deterministic allocation
id derivation, proof signing, the transaction manager outcome, ABI
event decoding, POI resolution and receipt collection.  These are
external modules in the source (contracts, ethers, monitor), so they
are abstracted as oracle functions. -/
structure ChainEnv where
  currentEpoch : Nat
  freeStake : Int
  allocationState : String → Nat
  uniqueAllocationID : Nat → String → List String → String × String
  allocationIdProof : String → String → String
  txResult : TxOutcome
  decodeAllocationCreated : Event → CreatedEventFields
  decodeAllocationClosed : Event → ClosedEventFields
  decodeRewardsAssigned : Event → Int
  resolvePOI : Allocation → Option String → Bool → Except String String
  collectResult : Bool

/-- Result of a successful `allocate`. -/
structure CreateAllocationResult where
  deployment : String
  allocation : String
  allocatedTokens : Int
deriving DecidableEq, Repr

/-- Result of a successful `unallocate`. -/
structure CloseAllocationResult where
  allocation : String
  allocatedTokens : Int
  indexingRewards : Int
  receiptsWorthCollecting : Bool
deriving DecidableEq, Repr

/-- Result of a successful `reallocate`. -/
structure ReallocateAllocationResult where
  closedAllocation : String
  indexingRewardsCollected : Int
  receiptsWorthCollecting : Bool
  createdAllocation : String
  createdAllocationStake : Int
deriving DecidableEq, Repr

/-- Find the first receipt event carrying the given topic, as
`events.find(event => event.topics.includes(...))`. -/
def findEvent (r : Receipt) (topic : String) : Option Event :=
  r.events.find? (fun e => e.topics.contains topic)

/-- `AllocationManager.allocate(deployment, amount)`.
`activeAllocations` is the network monitor's answer for currently
active allocations, read before any check.  The second component is
the trace of chain and store effects, in order:  the duplicate-active
check and both amount checks fire before the first chain read, and the
free-stake check fires before the subgraph-manager call and the
transaction. -/
def allocate (env : ChainEnv) (activeAllocations : List Allocation)
    (deployment : String) (amount : Int) :
    Except AllocErr CreateAllocationResult × List Effect :=
  match activeAllocations.find? (fun al => al.deploymentID = deployment) with
  | some al => (Except.error (AllocErr.activeAllocationExists al.deploymentID), [])
  | none =>
    if amount < 0 then (Except.error AllocErr.invalidAmountNegative, [])
    else if amount = 0 then (Except.error AllocErr.invalidAmountZero, [])
    else
      let t0 := [Effect.readEpoch, Effect.readCapacity]
      if env.freeStake < amount then
        (Except.error AllocErr.insufficientCapacity, t0)
      else
        let t1 := t0 ++ [Effect.ensureSubgraph deployment]
        let derived := env.uniqueAllocationID env.currentEpoch deployment
          (activeAllocations.map (fun al => al.id))
        let allocationId := derived.2
        let t2 := t1 ++ [Effect.readAllocationState allocationId]
        if env.allocationState allocationId ≠ 0 then
          (Except.error (AllocErr.allocationExistsOnchain allocationId), t2)
        else
          let proof := env.allocationIdProof derived.1 allocationId
          let t3 := t2 ++ [Effect.submitAllocateFrom allocationId amount proof]
          match env.txResult with
          | TxOutcome.paused => (Except.error AllocErr.txPaused, t3)
          | TxOutcome.unauthorized => (Except.error AllocErr.txUnauthorized, t3)
          | TxOutcome.receipt r =>
            match findEvent r "AllocationCreated" with
            | none => (Except.error (AllocErr.eventMissing "AllocationCreated"), t3)
            | some ev =>
              let createEvent := env.decodeAllocationCreated ev
              let t4 := t3 ++
                [Effect.rememberAllocations [createEvent.allocationID],
                 Effect.upsertRule deployment "ALWAYS" (some (toString amount))]
              (Except.ok
                { deployment := deployment,
                  allocation := createEvent.allocationID,
                  allocatedTokens := amount }, t4)

/-- `AllocationManager.unallocate(allocationID, poi, force)`.
`allocation` is the network monitor's record for the given id, read
before the try block.  Every failure inside the try block is rethrown
wrapped as an IE015 indexer error. -/
def unallocate (env : ChainEnv) (allocation : Allocation)
    (poi : Option String) (force : Bool) :
    Except AllocErr CloseAllocationResult × List Effect :=
  let t0 := [Effect.readEpoch]
  if allocation.createdAtEpoch = env.currentEpoch then
    (Except.error (AllocErr.ie015 (AllocErr.allocationTooYoung allocation.id)), t0)
  else
    match env.resolvePOI allocation poi force with
    | Except.error msg =>
      (Except.error (AllocErr.ie015 (AllocErr.poiUnresolved msg)), t0)
    | Except.ok resolvedPOI =>
      let t1 := t0 ++ [Effect.readAllocationState allocation.id]
      if env.allocationState allocation.id ≠ 1 then
        (Except.error (AllocErr.ie015 (AllocErr.allocationNotActive allocation.id)), t1)
      else
        let t2 := t1 ++ [Effect.submitCloseAllocation allocation.id resolvedPOI]
        match env.txResult with
        | TxOutcome.paused => (Except.error (AllocErr.ie015 AllocErr.txPaused), t2)
        | TxOutcome.unauthorized =>
          (Except.error (AllocErr.ie015 AllocErr.txUnauthorized), t2)
        | TxOutcome.receipt r =>
          match findEvent r "AllocationClosed" with
          | none =>
            (Except.error (AllocErr.ie015 (AllocErr.eventMissing "AllocationClosed")), t2)
          | some closeEvent =>
            let closeLogs := env.decodeAllocationClosed closeEvent
            let rewardsAssigned :=
              match findEvent r "RewardsAssigned" with
              | some rewardsEvent => env.decodeRewardsAssigned rewardsEvent
              | none => 0
            let t3 := t2 ++
              [Effect.collectReceipts allocation.id,
               Effect.upsertRule allocation.deploymentID "OFFCHAIN" none]
            (Except.ok
              { allocation := closeLogs.allocationID,
                allocatedTokens := closeLogs.tokens,
                indexingRewards := rewardsAssigned,
                receiptsWorthCollecting := env.collectResult }, t3)

/-- `AllocationManager.reallocate(allocationID, poi, amount, force)`.
`queryResult` is the network subgraph's answer for the live active
allocation set (an error there is rethrown as an IE010 query failure).
The preconditions run in source order: allocation found among the
active set, not created this epoch, POI resolved, still active
on-chain, amount positive, and the free-capacity check with capacity
equal to current free stake plus the tokens released by closing the
old allocation. -/
def reallocate (env : ChainEnv) (queryResult : Except String (List Allocation))
    (allocationID : String) (poi : Option String) (amount : Int)
    (force : Bool) :
    Except AllocErr ReallocateAllocationResult × List Effect :=
  match queryResult with
  | Except.error _ => (Except.error AllocErr.queryFailed, [])
  | Except.ok activeAllocations =>
    match activeAllocations.find? (fun al => al.id = allocationID) with
    | none => (Except.error (AllocErr.noActiveAllocation allocationID), [])
    | some allocation =>
      let t0 := [Effect.readEpoch]
      if allocation.createdAtEpoch = env.currentEpoch then
        (Except.error (AllocErr.allocationTooYoung allocation.id), t0)
      else
        match env.resolvePOI allocation poi force with
        | Except.error msg => (Except.error (AllocErr.poiUnresolved msg), t0)
        | Except.ok allocationPOI =>
          let t1 := t0 ++ [Effect.readAllocationState allocation.id]
          if env.allocationState allocation.id ≠ 1 then
            (Except.error (AllocErr.allocationNotActive allocation.id), t1)
          else if amount < 0 then
            (Except.error AllocErr.invalidAmountNegative, t1)
          else if amount = 0 then
            (Except.error AllocErr.invalidAmountZero, t1)
          else
            let t2 := t1 ++ [Effect.readCapacity]
            let postCloseFreeStake := env.freeStake + allocation.allocatedTokens
            if postCloseFreeStake < amount then
              (Except.error AllocErr.insufficientCapacity, t2)
            else
              let derived := env.uniqueAllocationID env.currentEpoch
                allocation.deploymentID
                (activeAllocations.map (fun al => al.id))
              let newAllocationId := derived.2
              let t3 := t2 ++ [Effect.readAllocationState newAllocationId]
              if env.allocationState newAllocationId ≠ 0 then
                (Except.error (AllocErr.allocationExistsOnchain newAllocationId), t3)
              else
                let proof := env.allocationIdProof derived.1 newAllocationId
                let t4 := t3 ++
                  [Effect.submitCloseAndAllocate allocation.id allocationPOI
                    newAllocationId amount proof]
                match env.txResult with
                | TxOutcome.paused => (Except.error AllocErr.txPaused, t4)
                | TxOutcome.unauthorized => (Except.error AllocErr.txUnauthorized, t4)
                | TxOutcome.receipt r =>
                  match findEvent r "AllocationCreated" with
                  | none =>
                    (Except.error (AllocErr.eventMissing "AllocationCreated"), t4)
                  | some createEvent =>
                    match findEvent r "AllocationClosed" with
                    | none =>
                      (Except.error (AllocErr.eventMissing "AllocationClosed"), t4)
                    | some closeEvent =>
                      let createLogs := env.decodeAllocationCreated createEvent
                      let closeLogs := env.decodeAllocationClosed closeEvent
                      let rewardsAssigned :=
                        match findEvent r "RewardsAssigned" with
                        | some rewardsEvent => env.decodeRewardsAssigned rewardsEvent
                        | none => 0
                      let t5 := t4 ++
                        [Effect.collectReceipts allocation.id,
                         Effect.upsertRule allocation.deploymentID "ALWAYS"
                           (some (toString amount))]
                      (Except.ok
                        { closedAllocation := closeLogs.allocationID,
                          indexingRewardsCollected := rewardsAssigned,
                          receiptsWorthCollecting := env.collectResult,
                          createdAllocation := createLogs.allocationID,
                          createdAllocationStake := createLogs.tokens }, t5)

/-- Pointwise effect of running one execution phase over the snapshot
list `L`: each snapshot action writes its own outcome back to every row
sharing its id, in order.  Proof infrastructure for `executeActions`. -/
def applyPhase (exec : Action → Bool) (L : List Action) (b : Action) :
    Action :=
  L.foldl
    (fun b a => if b.id = a.id then setStatus (execOutcome exec a) b else b) b

/-- Fixture: an approved allocate action, as in the repository tests. -/
def sampleApproved : Action :=
  { id := 1, type := ActionType.ALLOCATE,
    deploymentID := some "QmZSJPm74tvhgr8uzhqvyQm2J6YSbUEj4nF6j8WxxUQLsC",
    amount := some "10000", source := "indexerAgent",
    reason := "indexingRule", status := ActionStatus.APPROVED }

/-- Fixture: a queued unallocate action. -/
def sampleQueued : Action :=
  { id := 2, type := ActionType.UNALLOCATE,
    allocationID := some "0x8f63930129e585c69482b56390a09b6b176f4a4c",
    source := "indexerAgent", reason := "indexingRule",
    status := ActionStatus.QUEUED }

/-- Fixture: a canceled collect action. -/
def sampleCanceled : Action :=
  { id := 3, type := ActionType.COLLECT,
    allocationID := some "0x8f63930129e585c69482b56390a09b6b176f4a4c",
    source := "indexerAgent", reason := "indexingRule",
    status := ActionStatus.CANCELED }

/-- Fixture: an action whose type is none of the four members of the
`ActionType` enum. -/
def badTypeAction : Action :=
  { id := 4, type := "transfer", source := "indexerAgent",
    reason := "manual", status := ActionStatus.QUEUED }

/-- Fixture: an active allocation created at epoch 1. -/
def sampleAllocation : Allocation :=
  { id := "0xa", deploymentID := "Qm", allocatedTokens := 30,
    createdAtEpoch := 1 }

/-- Fixture: an active allocation created in the current epoch of
`sampleEnv`. -/
def youngAllocation : Allocation :=
  { id := "0xb", deploymentID := "Qm", allocatedTokens := 30,
    createdAtEpoch := 5 }

/-- Fixture: a concrete chain environment. -/
def sampleEnv : ChainEnv :=
  { currentEpoch := 5, freeStake := 100,
    allocationState := fun s => if s = "0xa" then 1 else 0,
    uniqueAllocationID := fun _ _ _ => ("signer", "0xnew"),
    allocationIdProof := fun _ _ => "proof",
    txResult := TxOutcome.paused,
    decodeAllocationCreated := fun _ =>
      { allocationID := "0xnew", tokens := 0, epoch := 5 },
    decodeAllocationClosed := fun _ =>
      { allocationID := "0xa", tokens := 30, epoch := 5 },
    decodeRewardsAssigned := fun _ => 0,
    resolvePOI := fun _ _ _ => Except.ok "0xpoi",
    collectResult := false }

/-- Fixture: a complete set of generic CLI parameters. -/
def sampleParams : GenericActionInputParams :=
  { target := some "0x8f63930129e585c69482b56390a09b6b176f4a4c",
    param1 := some "10000", param2 := some "maybe", param3 := none }

/-- Fixture: an incomplete allocate input (required amount missing)
with a non-queued status, as a caller may submit it directly to the
`queueActions` mutation. -/
def incompleteInput : ActionInput :=
  { type := ActionType.ALLOCATE,
    deploymentID := some "QmZSJPm74tvhgr8uzhqvyQm2J6YSbUEj4nF6j8WxxUQLsC",
    amount := none, source := "operator", reason := "manual",
    status := ActionStatus.APPROVED, priority := 0 }

/-- `setStatus` does not change the id of a row. -/
theorem setStatus_id (s : ActionStatus) (a : Action) :
    (setStatus s a).id = a.id := rfl

/-- `execStep` leaves the local `updatedActions` array unchanged: the
result of the JavaScript `concat` call is discarded by the source. -/
theorem execStep_updatedActions (exec : Action → Bool) (st : ExecState)
    (a : Action) : (execStep exec st a).updatedActions = st.updatedActions :=
  rfl

/-- The store after one `execStep` iteration: rows matching the
processed action's id get that action's outcome. -/
theorem execStep_store (exec : Action → Bool) (st : ExecState) (a : Action) :
    (execStep exec st a).store =
      st.store.map
        (fun b => if b.id = a.id then setStatus (execOutcome exec a) b else b) :=
  rfl

/-- A whole per-action loop leaves `updatedActions` unchanged. -/
theorem foldl_execStep_updatedActions (exec : Action → Bool)
    (L : List Action) :
    ∀ st : ExecState,
      (L.foldl (execStep exec) st).updatedActions = st.updatedActions := by
  induction L with
  | nil => intro st; rfl
  | cons a L ih =>
    intro st
    rw [List.foldl_cons, ih, execStep_updatedActions]

/-- A whole per-action loop maps `applyPhase` over the store. -/
theorem foldl_execStep_store (exec : Action → Bool) (L : List Action) :
    ∀ st : ExecState,
      (L.foldl (execStep exec) st).store = st.store.map (applyPhase exec L) := by
  induction L with
  | nil =>
    intro st
    rw [List.foldl_nil, show applyPhase exec [] = fun b => b from rfl,
      List.map_id']
  | cons a L ih =>
    intro st
    rw [List.foldl_cons, ih, execStep_store, List.map_map]
    rfl

/-- `applyPhase` on the empty snapshot. -/
theorem applyPhase_nil (exec : Action → Bool) (b : Action) :
    applyPhase exec [] b = b := rfl

/-- `applyPhase` unfolding on a cons. -/
theorem applyPhase_cons (exec : Action → Bool) (a : Action) (L : List Action)
    (b : Action) :
    applyPhase exec (a :: L) b =
      applyPhase exec L
        (if b.id = a.id then setStatus (execOutcome exec a) b else b) := rfl

/-- `applyPhase` splits over append. -/
theorem applyPhase_append (exec : Action → Bool) (L1 L2 : List Action)
    (b : Action) :
    applyPhase exec (L1 ++ L2) b = applyPhase exec L2 (applyPhase exec L1 b) :=
  List.foldl_append _ _ _ _

/-- A phase whose snapshot contains no row with `b`'s id leaves `b`
unchanged. -/
theorem applyPhase_eq_self (exec : Action → Bool) (L : List Action)
    (b : Action) (h : ∀ a ∈ L, a.id ≠ b.id) : applyPhase exec L b = b := by
  induction L with
  | nil => rfl
  | cons a L ih =>
    rw [applyPhase_cons, if_neg]
    · exact ih (fun x hx => h x (List.mem_cons_of_mem a hx))
    · intro hba
      exact h a (List.mem_cons_self a L) hba.symm

/-- Under unique ids, a phase over `store.filter p` updates a member
`b` of the store exactly when `p b` holds, writing `b`'s own outcome. -/
theorem applyPhase_filter (exec p : Action → Bool) (store : List Action)
    (hN : (store.map Action.id).Nodup) (b : Action) (hb : b ∈ store) :
    applyPhase exec (store.filter p) b =
      if p b then setStatus (execOutcome exec b) b else b := by
  by_cases hpb : p b = true
  · rw [if_pos hpb]
    have hbf : b ∈ store.filter p := List.mem_filter.mpr ⟨hb, hpb⟩
    obtain ⟨L1, L2, hdec⟩ := List.append_of_mem hbf
    have hsub : ((store.filter p).map Action.id).Nodup :=
      (List.filter_sublist store |>.map Action.id).nodup hN
    rw [hdec] at hsub
    rw [List.map_append, List.map_cons] at hsub
    rw [List.nodup_append] at hsub
    obtain ⟨h1, h2, hdisj⟩ := hsub
    have hbid1 : ∀ a ∈ L1, a.id ≠ b.id := by
      intro a ha heq
      exact hdisj (heq ▸ List.mem_map_of_mem Action.id ha)
        (List.mem_cons_self _ _)
    have hbid2 : ∀ a ∈ L2, a.id ≠ b.id := by
      intro a ha heq
      rw [List.nodup_cons] at h2
      exact h2.1 (heq ▸ List.mem_map_of_mem Action.id ha)
    rw [hdec, applyPhase_append, applyPhase_eq_self exec L1 b hbid1,
      applyPhase_cons, if_pos rfl, applyPhase_eq_self]
    intro a ha
    rw [setStatus_id]
    exact hbid2 a ha
  · rw [if_neg hpb]
    apply applyPhase_eq_self
    intro a ha heq
    have hamem := (List.mem_filter.mp ha).1
    have hpa := (List.mem_filter.mp ha).2
    have hab : a = b := List.inj_on_of_nodup_map hN hamem hb heq
    rw [hab] at hpa
    exact hpb hpa

/-- Running one phase over the rows of the store selected by `p`:
under unique ids, every selected row gets its own outcome and every
other row is untouched. -/
theorem runPhase_store (exec p : Action → Bool) (st : ExecState)
    (hN : (st.store.map Action.id).Nodup) :
    ((st.store.filter p).foldl (execStep exec) st).store =
      st.store.map
        (fun b => if p b then setStatus (execOutcome exec b) b else b) := by
  rw [foldl_execStep_store]
  exact List.map_congr_left (fun b hb => applyPhase_filter exec p st.store hN b hb)

/-- Characterization of the final store for `force = true`: only
`QUEUED` actions whose id is listed are executed. -/
theorem executeActions_true_store (exec : Action → Bool)
    (store : List Action) (ids : List Nat)
    (hN : (store.map Action.id).Nodup) :
    (executeActions exec store ids true).store =
      store.map (fun b =>
        if b.status = ActionStatus.QUEUED ∧ b.id ∈ ids then
          setStatus (execOutcome exec b) b
        else b) := by
  have h0 : executeActions exec store ids true =
      ((store.filter (fun a => a.status = ActionStatus.QUEUED)).filter
        (fun a => ids.contains a.id)).foldl (execStep exec)
        { store := store, updatedActions := [] } := rfl
  rw [h0, List.filter_filter]
  have h1 := runPhase_store exec
    (fun a => ids.contains a.id && decide (a.status = ActionStatus.QUEUED))
    { store := store, updatedActions := [] } hN
  rw [h1]
  apply List.map_congr_left
  intro b _
  by_cases h2 : b.status = ActionStatus.QUEUED <;> by_cases h3 : b.id ∈ ids <;>
    simp [h2, h3, List.contains, List.elem_iff]

/-- Characterization of the final store for `force = false`: approved
actions are executed by the phase-1 sweep and queued listed actions by
phase 2; everything else is untouched. -/
theorem executeActions_false_store (exec : Action → Bool)
    (store : List Action) (ids : List Nat)
    (hN : (store.map Action.id).Nodup) :
    (executeActions exec store ids false).store =
      store.map (fun b =>
        if b.status = ActionStatus.APPROVED then
          setStatus (execOutcome exec b) b
        else if b.status = ActionStatus.QUEUED ∧ b.id ∈ ids then
          setStatus (execOutcome exec b) b
        else b) := by
  have h0 : executeActions exec store ids false =
      (((((store.filter (fun a => a.status = ActionStatus.APPROVED)).foldl
          (execStep exec) { store := store, updatedActions := [] }).store.filter
        (fun a => a.status = ActionStatus.QUEUED)).filter
        (fun a => ids.contains a.id)).foldl (execStep exec)
        ((store.filter (fun a => a.status = ActionStatus.APPROVED)).foldl
          (execStep exec) { store := store, updatedActions := [] })) := rfl
  rw [h0]
  have h1 := runPhase_store exec
    (fun a => decide (a.status = ActionStatus.APPROVED))
    { store := store, updatedActions := [] } hN
  set st1 := (store.filter (fun a => a.status = ActionStatus.APPROVED)).foldl
    (execStep exec) ({ store := store, updatedActions := [] } : ExecState)
    with hst1
  have hids : st1.store.map Action.id = store.map Action.id := by
    rw [h1, List.map_map]
    apply List.map_congr_left
    intro b _
    show (if decide (b.status = ActionStatus.APPROVED) then
      setStatus (execOutcome exec b) b else b).id = b.id
    split <;> rfl
  have hN1 : (st1.store.map Action.id).Nodup := by rw [hids]; exact hN
  rw [List.filter_filter]
  have h2 := runPhase_store exec
    (fun a => ids.contains a.id && decide (a.status = ActionStatus.QUEUED))
    st1 hN1
  rw [h2, h1, List.map_map]
  apply List.map_congr_left
  intro b _
  show (fun c =>
      if ids.contains c.id && decide (c.status = ActionStatus.QUEUED) then
        setStatus (execOutcome exec c) c else c)
    ((fun c => if decide (c.status = ActionStatus.APPROVED) then
        setStatus (execOutcome exec c) c else c) b) = _
  by_cases hA : b.status = ActionStatus.APPROVED
  · by_cases he : exec b <;> simp [hA, he, setStatus, execOutcome]
  · by_cases h2' : b.status = ActionStatus.QUEUED <;>
      by_cases h3 : b.id ∈ ids <;>
      simp [hA, h2', h3, List.contains, List.elem_iff]

/-- C1: the claim states that `execute(ids, force)` returns the full
set of action records updated during the call.  The code instead
always returns an empty list: `updatedActions.concat(updatedAction)`
does not mutate `updatedActions` and its result is discarded.  At the
concrete failing input — a store holding one APPROVED action, executed
with `ids = []`, `force = false`, dispatch succeeding — the sweep marks
the action SUCCESS in the store, yet the returned list is empty. -/
theorem executeActions_updates_but_returns_nothing :
    (executeActions (fun _ => true) [sampleApproved] [] false).store =
        [setStatus ActionStatus.SUCCESS sampleApproved]
      ∧ (executeActions (fun _ => true) [sampleApproved] [] false).updatedActions
        = [] := by
  constructor <;> rfl

/-- C2: with `force = true` the phase-1 sweep of APPROVED actions is
skipped entirely and the call executes exactly the QUEUED actions whose
id is in `ids`; with `force = false` the same phase-2 set is executed
after the sweep.  In particular an APPROVED action named in `ids` is
untouched by a `force = true` call, so `force` cannot re-execute an
APPROVED action by id alone.  Ids are assumed unique, as they are
primary keys of the store. -/
theorem executeActions_force_only_suppresses_sweep (exec : Action → Bool)
    (store : List Action) (ids : List Nat)
    (hN : (store.map Action.id).Nodup) :
    (executeActions exec store ids true).store =
        store.map (fun b =>
          if b.status = ActionStatus.QUEUED ∧ b.id ∈ ids then
            setStatus (execOutcome exec b) b
          else b)
      ∧ (executeActions exec store ids false).store =
        store.map (fun b =>
          if b.status = ActionStatus.APPROVED then
            setStatus (execOutcome exec b) b
          else if b.status = ActionStatus.QUEUED ∧ b.id ∈ ids then
            setStatus (execOutcome exec b) b
          else b)
      ∧ ∀ b ∈ store, b.status = ActionStatus.APPROVED →
          b ∈ (executeActions exec store ids true).store := by
  refine ⟨executeActions_true_store exec store ids hN,
    executeActions_false_store exec store ids hN, ?_⟩
  intro b hb hA
  rw [executeActions_true_store exec store ids hN]
  have hfix : (if b.status = ActionStatus.QUEUED ∧ b.id ∈ ids then
      setStatus (execOutcome exec b) b else b) = b := by
    rw [if_neg]
    intro hcontra
    rw [hA] at hcontra
    exact absurd hcontra.1 (by simp)
  exact hfix ▸ List.mem_map_of_mem _ hb

/-- C2 witness at a concrete input: with `force = true` and the
approved action's own id listed, only the queued action with a listed
id is executed; the approved action stays untouched. -/
theorem executeActions_force_only_suppresses_sweep_witness :
    (executeActions (fun _ => true) [sampleApproved, sampleQueued] [1, 2]
        true).store
      = [sampleApproved, setStatus ActionStatus.SUCCESS sampleQueued] := by
  have h := executeActions_force_only_suppresses_sweep (fun _ => true)
    [sampleApproved, sampleQueued] [1, 2] (by decide)
  rw [h.1]
  rfl

/-- C3: per-action outcome independence of the batch in
`execute(ids, false)`.  Every action executed in either phase (the
APPROVED sweep, or QUEUED with a listed id) ends with its own outcome —
SUCCESS exactly when its own dispatch succeeds, FAILED when its own
dispatch throws — irrespective of what happens to any sibling; rows in
neither batch are left exactly as they were.  Ids are assumed unique,
as they are primary keys of the store. -/
theorem executeActions_outcomes_independent (exec : Action → Bool)
    (store : List Action) (ids : List Nat)
    (hN : (store.map Action.id).Nodup) :
    (∀ b ∈ store,
      (b.status = ActionStatus.APPROVED ∨
        (b.status = ActionStatus.QUEUED ∧ b.id ∈ ids)) →
      setStatus (if exec b then ActionStatus.SUCCESS else ActionStatus.FAILED)
          b
        ∈ (executeActions exec store ids false).store)
    ∧ (∀ b ∈ store,
      b.status ≠ ActionStatus.APPROVED →
      ¬(b.status = ActionStatus.QUEUED ∧ b.id ∈ ids) →
      b ∈ (executeActions exec store ids false).store) := by
  constructor
  · intro b hb hcase
    rw [executeActions_false_store exec store ids hN]
    have hfix : (if b.status = ActionStatus.APPROVED then
        setStatus (execOutcome exec b) b
      else if b.status = ActionStatus.QUEUED ∧ b.id ∈ ids then
        setStatus (execOutcome exec b) b
      else b) = setStatus
        (if exec b then ActionStatus.SUCCESS else ActionStatus.FAILED) b := by
      rcases hcase with hA | hQ
      · rw [if_pos hA]; rfl
      · rw [if_neg, if_pos hQ]
        · rfl
        · rw [hQ.1]; simp
    exact hfix ▸ List.mem_map_of_mem _ hb
  · intro b hb hA hQ
    rw [executeActions_false_store exec store ids hN]
    have hfix : (if b.status = ActionStatus.APPROVED then
        setStatus (execOutcome exec b) b
      else if b.status = ActionStatus.QUEUED ∧ b.id ∈ ids then
        setStatus (execOutcome exec b) b
      else b) = b := by
      rw [if_neg hA, if_neg hQ]
    exact hfix ▸ List.mem_map_of_mem _ hb

/-- C3 witness at a concrete input: a batch where the queued action's
dispatch throws while the approved action's dispatch succeeds — the
failing action reaches FAILED and the succeeding sibling still reaches
SUCCESS. -/
theorem executeActions_outcomes_independent_witness :
    setStatus ActionStatus.FAILED sampleQueued
        ∈ (executeActions (fun a => a.id = 1) [sampleApproved, sampleQueued]
          [2] false).store
      ∧ setStatus ActionStatus.SUCCESS sampleApproved
        ∈ (executeActions (fun a => a.id = 1) [sampleApproved, sampleQueued]
          [2] false).store := by
  have h := executeActions_outcomes_independent (fun a => a.id = 1)
    [sampleApproved, sampleQueued] [2] (by decide)
  constructor
  · have hm := h.1 sampleQueued (by simp) (Or.inr (by decide))
    simpa using hm
  · have hm := h.1 sampleApproved (by simp) (Or.inl (by decide))
    simpa using hm

/-- C4 counterexample: the claim states that dispatching an action with
an unmapped type is a fatal error.  In the code `takeAction` is an
if/else-if chain with no else branch: for the concrete action whose
type is "transfer" it dispatches no lifecycle call and raises no error,
returning undefined — it completes without effect. -/
theorem takeAction_unmapped_type_no_error :
    takeAction badTypeAction = none := by rfl

/-- C4 as amended: each of the four action types maps to exactly one
allocation-manager call with the parameter mapping of the source
(`poi` null becomes undefined, `force` null becomes false); an action
with an unmapped type is not dispatched and is not an error — the
dispatch returns undefined, completing without effect. -/
theorem takeAction_maps_each_type (a : Action) :
    (a.type = ActionType.ALLOCATE →
      takeAction a = some (LifecycleCall.allocateCall a.deploymentID a.amount))
    ∧ (a.type = ActionType.UNALLOCATE →
      takeAction a = some (LifecycleCall.unallocateCall a.allocationID a.poi
        (a.force.getD false)))
    ∧ (a.type = ActionType.REALLOCATE →
      takeAction a = some (LifecycleCall.reallocateCall a.allocationID a.poi
        a.amount (a.force.getD false)))
    ∧ (a.type = ActionType.COLLECT →
      takeAction a = some (LifecycleCall.collectCall a.allocationID))
    ∧ (a.type ≠ ActionType.ALLOCATE → a.type ≠ ActionType.UNALLOCATE →
      a.type ≠ ActionType.REALLOCATE → a.type ≠ ActionType.COLLECT →
      takeAction a = none) := by
  refine ⟨?_, ?_, ?_, ?_, ?_⟩
  · intro h
    simp [takeAction, h]
  · intro h
    simp [takeAction, h, ActionType.ALLOCATE, ActionType.UNALLOCATE]
  · intro h
    simp [takeAction, h, ActionType.ALLOCATE, ActionType.UNALLOCATE,
      ActionType.REALLOCATE]
  · intro h
    simp [takeAction, h, ActionType.ALLOCATE, ActionType.UNALLOCATE,
      ActionType.REALLOCATE, ActionType.COLLECT]
  · intro h1 h2 h3 h4
    simp [takeAction, h1, h2, h3, h4]

/-- C4 witness at a concrete input: the approved allocate fixture is
dispatched to exactly one `allocate` call carrying its deployment and
amount. -/
theorem takeAction_maps_each_type_witness :
    takeAction sampleApproved =
      some (LifecycleCall.allocateCall
        (some "QmZSJPm74tvhgr8uzhqvyQm2J6YSbUEj4nF6j8WxxUQLsC")
        (some "10000")) :=
  (takeAction_maps_each_type sampleApproved).1 rfl

/-- C5 counterexample: the claim states that a CANCELED action can
never return to APPROVED via approve.  `approveActions` updates by id
with no restriction on the current status, so approving the id of the
canceled fixture returns it with status APPROVED. -/
theorem approveActions_resurrects_canceled :
    approveActions [sampleCanceled] [3] =
      Except.ok ([setStatus ActionStatus.APPROVED sampleCanceled],
        [setStatus ActionStatus.APPROVED sampleCanceled]) := by rfl

/-- C5 as amended: `approveActions` sets APPROVED and `cancelActions`
sets CANCELED on every action whose id is listed, regardless of the
action's current status.  In particular approve does resurrect a
CANCELED action, and cancel is not restricted to QUEUED/APPROVED
actions. -/
theorem approve_cancel_ignore_current_status (store : List Action)
    (ids : List Nat) (a : Action) (hmem : a ∈ store) (hid : a.id ∈ ids) :
    (∃ p, approveActions store ids = Except.ok p ∧
      setStatus ActionStatus.APPROVED a ∈ p.2)
    ∧ (∃ p, cancelActions store ids = Except.ok p ∧
      setStatus ActionStatus.CANCELED a ∈ p.2) := by
  have hidb : ids.contains a.id = true := by
    simpa [List.contains, List.elem_iff] using hid
  have haf : a ∈ store.filter (fun x => ids.contains x.id) :=
    List.mem_filter.mpr ⟨hmem, hidb⟩
  constructor
  · have hmemr : setStatus ActionStatus.APPROVED a ∈
        (store.filter (fun x => ids.contains x.id)).map
          (setStatus ActionStatus.APPROVED) :=
      List.mem_map_of_mem _ haf
    have hne : ((store.filter (fun x => ids.contains x.id)).map
        (setStatus ActionStatus.APPROVED)).length ≠ 0 := by
      intro hlen
      rw [List.length_eq_zero] at hlen
      rw [hlen] at hmemr
      exact absurd hmemr (List.not_mem_nil _)
    refine ⟨(store.map (fun x =>
        if ids.contains x.id then setStatus ActionStatus.APPROVED x else x),
      (store.filter (fun x => ids.contains x.id)).map
        (setStatus ActionStatus.APPROVED)), ?_, hmemr⟩
    simp only [approveActions]
    rw [if_neg hne]
  · have hmemr : setStatus ActionStatus.CANCELED a ∈
        (store.filter (fun x => ids.contains x.id)).map
          (setStatus ActionStatus.CANCELED) :=
      List.mem_map_of_mem _ haf
    have hne : ((store.filter (fun x => ids.contains x.id)).map
        (setStatus ActionStatus.CANCELED)).length ≠ 0 := by
      intro hlen
      rw [List.length_eq_zero] at hlen
      rw [hlen] at hmemr
      exact absurd hmemr (List.not_mem_nil _)
    refine ⟨(store.map (fun x =>
        if ids.contains x.id then setStatus ActionStatus.CANCELED x else x),
      (store.filter (fun x => ids.contains x.id)).map
        (setStatus ActionStatus.CANCELED)), ?_, hmemr⟩
    simp only [cancelActions]
    rw [if_neg hne]

/-- C5 witness at a concrete input: the canceled fixture, whose id is
listed, is both approvable (becoming APPROVED) and cancelable again. -/
theorem approve_cancel_ignore_current_status_witness :
    (∃ p, approveActions [sampleCanceled] [3] = Except.ok p ∧
      setStatus ActionStatus.APPROVED sampleCanceled ∈ p.2)
    ∧ (∃ p, cancelActions [sampleCanceled] [3] = Except.ok p ∧
      setStatus ActionStatus.CANCELED sampleCanceled ∈ p.2) :=
  approve_cancel_ignore_current_status [sampleCanceled] [3] sampleCanceled
    (by simp) (by decide)

/-- C6: `allocate(deployment, amount)` fails fast when `amount <= 0`
or when an Active allocation already exists for the deployment: it
returns an error with an empty effect trace — no chain call is
attempted, no transaction is submitted, and no store mutation is
performed. -/
theorem allocate_rejects_without_chain_call (env : ChainEnv)
    (activeAllocations : List Allocation) (deployment : String) (amount : Int)
    (h : amount ≤ 0 ∨ ∃ al ∈ activeAllocations, al.deploymentID = deployment) :
    ∃ e, allocate env activeAllocations deployment amount =
      (Except.error e, []) := by
  cases hfind : activeAllocations.find? (fun al => al.deploymentID = deployment) with
  | some al =>
    exact ⟨AllocErr.activeAllocationExists al.deploymentID,
      by simp [allocate, hfind]⟩
  | none =>
    have hno : ¬∃ al ∈ activeAllocations, al.deploymentID = deployment := by
      rintro ⟨al, hal, heq⟩
      have hf := List.find?_eq_none.mp hfind al hal
      simp [heq] at hf
    have hle : amount ≤ 0 := h.resolve_right hno
    by_cases hneg : amount < 0
    · exact ⟨AllocErr.invalidAmountNegative, by simp [allocate, hfind, hneg]⟩
    · have hzero : amount = 0 := le_antisymm hle (not_lt.mp hneg)
      exact ⟨AllocErr.invalidAmountZero,
        by simp [allocate, hfind, hneg, hzero]⟩

/-- C6 witness at a concrete input: allocating zero tokens with no
active allocations fails with an empty effect trace. -/
theorem allocate_rejects_without_chain_call_witness :
    ∃ e, allocate sampleEnv [] "Qm" 0 = (Except.error e, []) :=
  allocate_rejects_without_chain_call sampleEnv [] "Qm" 0
    (Or.inl (by norm_num))

/-- C8: `unallocate` rejects an allocation created in the current
epoch: the call fails (with the IE015-wrapped too-young error) and no
`closeAllocation` transaction is submitted — the effect trace contains
only the epoch read. -/
theorem unallocate_rejects_current_epoch (env : ChainEnv)
    (allocation : Allocation) (poi : Option String) (force : Bool)
    (h : allocation.createdAtEpoch = env.currentEpoch) :
    (unallocate env allocation poi force).1 =
        Except.error (AllocErr.ie015 (AllocErr.allocationTooYoung allocation.id))
      ∧ ∀ i p, Effect.submitCloseAllocation i p ∉
        (unallocate env allocation poi force).2 := by
  have heq : unallocate env allocation poi force =
      (Except.error (AllocErr.ie015 (AllocErr.allocationTooYoung allocation.id)),
        [Effect.readEpoch]) := by
    simp [unallocate, h]
  rw [heq]
  exact ⟨rfl, by intro i p hmem; simp at hmem⟩

/-- C8 witness at a concrete input: the fixture allocation created at
epoch 5 cannot be closed while the current epoch is 5. -/
theorem unallocate_rejects_current_epoch_witness :
    (unallocate sampleEnv youngAllocation none false).1 =
      Except.error (AllocErr.ie015 (AllocErr.allocationTooYoung "0xb")) :=
  (unallocate_rejects_current_epoch sampleEnv youngAllocation none false rfl).1

/-- C7: the `reallocate` capacity check is exact integer arithmetic on
free stake plus the tokens released by closing the old allocation:
once the earlier preconditions pass (allocation found among the active
set with tokens `T`, not created this epoch, POI resolved, still
active on-chain, positive amount), the call fails with the
insufficient-capacity error if and only if `freeStake + T < amount`;
equivalently the check passes exactly when `amount ≤ freeStake + T`. -/
theorem reallocate_capacity_check_iff (env : ChainEnv)
    (activeAllocations : List Allocation) (allocationID : String)
    (poi : Option String) (amount : Int) (force : Bool)
    (allocation : Allocation) (p : String)
    (hfind : activeAllocations.find? (fun al => al.id = allocationID) =
      some allocation)
    (hepoch : allocation.createdAtEpoch ≠ env.currentEpoch)
    (hpoi : env.resolvePOI allocation poi force = Except.ok p)
    (hstate : env.allocationState allocation.id = 1)
    (hpos : 0 < amount) :
    (reallocate env (Except.ok activeAllocations) allocationID poi amount
        force).1 = Except.error AllocErr.insufficientCapacity
      ↔ env.freeStake + allocation.allocatedTokens < amount := by
  have hneg : ¬amount < 0 := by omega
  have hzero : ¬amount = 0 := by omega
  simp only [reallocate, hfind, hpoi, hstate]
  rw [if_neg hepoch]
  simp only [ne_eq, not_true_eq_false, if_false, hneg, hzero]
  by_cases hcap : env.freeStake + allocation.allocatedTokens < amount
  · simp [hcap]
  · simp only [hcap, if_false]
    constructor
    · intro hres
      exfalso
      revert hres
      split
      · simp
      · split
        · simp
        · simp
        · split
          · simp
          · split
            · simp
            · simp
    · intro hres
      exact hres.elim

/-- C7 witness at a concrete input: free stake 100 plus released
tokens 30 cannot cover a requested amount of 200, so the call fails
with the insufficient-capacity error. -/
theorem reallocate_capacity_check_iff_witness :
    (reallocate sampleEnv (Except.ok [sampleAllocation]) "0xa" none 200
        false).1 = Except.error AllocErr.insufficientCapacity :=
  (reallocate_capacity_check_iff sampleEnv [sampleAllocation] "0xa" none 200
    false sampleAllocation "0xpoi" (by rfl) (by decide) (by rfl) (by rfl)
    (by decide)).mpr (by decide)

/-- `queueActions` appends exactly the persisted rows to the store. -/
theorem queueActions_store_eq (inputs : List ActionInput) :
    ∀ store nextId, (queueActions store nextId inputs).1 =
      store ++ (queueActions store nextId inputs).2.2 := by
  induction inputs with
  | nil => intro store nextId; simp [queueActions]
  | cons inp rest ih =>
    intro store nextId
    simp only [queueActions]
    rw [ih]
    simp

/-- `queueActions` advances the id counter by the number of inputs. -/
theorem queueActions_nextId_eq (inputs : List ActionInput) :
    ∀ store nextId, (queueActions store nextId inputs).2.1 =
      nextId + inputs.length := by
  induction inputs with
  | nil => intro store nextId; simp [queueActions]
  | cons inp rest ih =>
    intro store nextId
    simp only [queueActions]
    rw [ih]
    simp
    omega

/-- `queueActions` persists one row per input. -/
theorem queueActions_length_eq (inputs : List ActionInput) :
    ∀ store nextId, (queueActions store nextId inputs).2.2.length =
      inputs.length := by
  induction inputs with
  | nil => intro store nextId; simp [queueActions]
  | cons inp rest ih =>
    intro store nextId
    simp only [queueActions, List.length_cons]
    rw [ih]

/-- The `i`-th persisted row of `queueActions` is the `i`-th input with
id `nextId + i` assigned. -/
theorem queueActions_get_eq (inputs : List ActionInput) :
    ∀ store nextId i (hi : i < inputs.length)
      (hj : i < (queueActions store nextId inputs).2.2.length),
      (queueActions store nextId inputs).2.2.get ⟨i, hj⟩ =
        inputToAction (nextId + i) (inputs.get ⟨i, hi⟩) := by
  induction inputs with
  | nil =>
    intro store nextId i hi hj
    exact absurd hi (by simp)
  | cons inp rest ih =>
    intro store nextId i hi hj
    cases i with
    | zero => rfl
    | succ k =>
      have hk : k < rest.length := by
        simpa using hi
      have hk2 : k < (queueActions (store ++ [inputToAction nextId inp])
          (nextId + 1) rest).2.2.length := by
        rw [queueActions_length_eq]
        exact hk
      have hstep := ih (store ++ [inputToAction nextId inp]) (nextId + 1) k
        hk hk2
      have hoffset : nextId + 1 + k = nextId + (k + 1) := by omega
      rw [hoffset] at hstep
      exact hstep

/-- C9 counterexample: the claim states that the queue operation
validates required fields and inserts with status QUEUED.  The
`queueActions` resolver validates nothing and preserves the caller's
status: the concrete ALLOCATE input with its required amount missing
and status APPROVED is inserted as given, with no validation error. -/
theorem queueActions_no_validation_counterexample :
    queueActions [] 1 [incompleteInput] =
        ([inputToAction 1 incompleteInput], 2, [inputToAction 1 incompleteInput])
      ∧ (inputToAction 1 incompleteInput).status = ActionStatus.APPROVED
      ∧ (inputToAction 1 incompleteInput).amount = none := by
  exact ⟨rfl, rfl, rfl⟩

/-- C9 as amended: per-type required-field validation happens in the
client-side `buildActionInput` before the mutation is submitted —
ALLOCATE/REALLOCATE require a target and a primary parameter,
UNALLOCATE/COLLECT only a target, and a validation failure enumerates
exactly the missing required fields of that action; the `queueActions`
mutation itself inserts the actions exactly as given, preserving the
caller-supplied status (the CLI supplies QUEUED), assigning sequential
ids starting at the store's next free id, and returning the persisted
records. -/
theorem queue_validation_and_insertion (ty : ActionTy)
    (prm : GenericActionInputParams) (source reason : String)
    (status : ActionStatus) (priority : Nat) (store : List Action)
    (nextId : Nat) (inputs : List ActionInput) :
    (requiredFieldsOf ActionTy.ALLOCATE = ["target", "param1"]
      ∧ requiredFieldsOf ActionTy.REALLOCATE = ["target", "param1"]
      ∧ requiredFieldsOf ActionTy.UNALLOCATE = ["target"]
      ∧ requiredFieldsOf ActionTy.COLLECT = ["target"])
    ∧ (∀ e, buildActionInput ty prm source reason status priority =
        Except.error e →
        e = (requiredFieldsOf ty).filter (fun f => (getParam prm f).isNone)
          ∧ e ≠ [])
    ∧ ((requiredFieldsOf ty).filter (fun f => (getParam prm f).isNone) ≠ [] →
        buildActionInput ty prm source reason status priority =
          Except.error
            ((requiredFieldsOf ty).filter (fun f => (getParam prm f).isNone)))
    ∧ (∀ a, buildActionInput ty prm source reason ActionStatus.QUEUED
        priority = Except.ok a → a.status = ActionStatus.QUEUED)
    ∧ ((queueActions store nextId inputs).1 =
        store ++ (queueActions store nextId inputs).2.2
      ∧ (queueActions store nextId inputs).2.2.length = inputs.length
      ∧ ∀ i (hi : i < inputs.length)
          (hj : i < (queueActions store nextId inputs).2.2.length),
          (queueActions store nextId inputs).2.2.get ⟨i, hj⟩ =
            inputToAction (nextId + i) (inputs.get ⟨i, hi⟩)) := by
  refine ⟨⟨rfl, rfl, rfl, rfl⟩, ?_, ?_, ?_,
    queueActions_store_eq inputs store nextId,
    queueActions_length_eq inputs store nextId,
    fun i hi hj => queueActions_get_eq inputs store nextId i hi hj⟩
  · intro e he
    cases hv : validateActionInput ty prm with
    | ok u =>
      cases ty <;> simp [buildActionInput, hv] at he
    | error e' =>
      have he' : e = e' := by
        cases ty <;> simp [buildActionInput, hv] at he <;> exact he.symm
      simp only [validateActionInput, validateRequiredParams] at hv
      by_cases hemp : ((requiredFieldsOf ty).filter
          (fun f => (getParam prm f).isNone)).isEmpty = true
      · rw [if_pos hemp] at hv
        exact absurd hv (by simp)
      · rw [if_neg hemp] at hv
        have hm : (requiredFieldsOf ty).filter
            (fun f => (getParam prm f).isNone) = e' := by
          simpa using hv
        refine ⟨by rw [he', ← hm], ?_⟩
        rw [he', ← hm]
        intro hnil
        rw [hnil] at hemp
        exact hemp rfl
  · intro hne
    have hv : validateActionInput ty prm = Except.error
        ((requiredFieldsOf ty).filter (fun f => (getParam prm f).isNone)) := by
      simp only [validateActionInput, validateRequiredParams]
      rw [if_neg]
      intro hemp
      exact hne (by simpa using hemp)
    cases ty <;> simp [buildActionInput, hv]
  · intro a ha
    cases hv : validateActionInput ty prm with
    | error e' =>
      cases ty <;> simp [buildActionInput, hv] at ha
    | ok u =>
      cases ty <;> simp [buildActionInput, hv] at ha <;> rw [← ha]

/-- C9 witness at a concrete input: with the amount parameter removed,
an ALLOCATE build fails listing exactly the missing "param1"; and the
resolver persists the incomplete input fixture verbatim with id 1. -/
theorem queue_validation_and_insertion_witness :
    buildActionInput ActionTy.ALLOCATE
        { target := some "QmZSJPm74tvhgr8uzhqvyQm2J6YSbUEj4nF6j8WxxUQLsC" }
        "indexerCLI" "manual" ActionStatus.QUEUED 0 =
      Except.error ["param1"] := by
  have h := queue_validation_and_insertion ActionTy.ALLOCATE
    { target := some "QmZSJPm74tvhgr8uzhqvyQm2J6YSbUEj4nF6j8WxxUQLsC" }
    "indexerCLI" "manual" ActionStatus.QUEUED 0 [] 1 []
  have h3 := h.2.2.1 (by decide)
  simpa using h3

/-- C10: when building an UNALLOCATE or REALLOCATE input, the force
flag is true exactly when the corresponding positional parameter is
the string "true" (any other string or an absent parameter yields
false); and an absent or arbitrary force parameter never causes an
error — success depends only on the type's required fields. -/
theorem buildActionInput_force_flag (prm : GenericActionInputParams)
    (source reason : String) (status : ActionStatus) (priority : Nat) :
    (∀ a, buildActionInput ActionTy.UNALLOCATE prm source reason status
        priority = Except.ok a →
      (a.force = some true ↔ prm.param2 = some "true")
        ∧ (a.force = some false ↔ prm.param2 ≠ some "true"))
    ∧ (∀ a, buildActionInput ActionTy.REALLOCATE prm source reason status
        priority = Except.ok a →
      (a.force = some true ↔ prm.param3 = some "true")
        ∧ (a.force = some false ↔ prm.param3 ≠ some "true"))
    ∧ (prm.target.isSome →
      ∃ a, buildActionInput ActionTy.UNALLOCATE prm source reason status
        priority = Except.ok a)
    ∧ (prm.target.isSome → prm.param1.isSome →
      ∃ a, buildActionInput ActionTy.REALLOCATE prm source reason status
        priority = Except.ok a) := by
  have hvU : prm.target.isSome →
      validateActionInput ActionTy.UNALLOCATE prm = Except.ok () := by
    intro ht
    simp only [validateActionInput, validateRequiredParams, requiredFieldsOf]
    rw [if_pos]
    simp [getParam, Option.isNone_iff_eq_none]
    intro hnone
    rw [hnone] at ht
    simp at ht
  have hvR : prm.target.isSome → prm.param1.isSome →
      validateActionInput ActionTy.REALLOCATE prm = Except.ok () := by
    intro ht hp
    simp only [validateActionInput, validateRequiredParams, requiredFieldsOf]
    rw [if_pos]
    simp only [List.isEmpty_eq_true, List.filter_eq_nil_iff]
    intro f hf
    simp only [List.mem_cons, List.not_mem_nil, or_false] at hf
    rcases hf with hf | hf <;> subst hf <;>
      simp [getParam, Option.isNone_iff_eq_none] <;> intro hnone
    · rw [hnone] at ht; simp at ht
    · rw [hnone] at hp; simp at hp
  refine ⟨?_, ?_, ?_, ?_⟩
  · intro a ha
    cases hv : validateActionInput ActionTy.UNALLOCATE prm with
    | error e => simp [buildActionInput, hv] at ha
    | ok u =>
      simp [buildActionInput, hv] at ha
      rw [← ha]
      by_cases hp : prm.param2 = some "true" <;> simp [hp]
  · intro a ha
    cases hv : validateActionInput ActionTy.REALLOCATE prm with
    | error e => simp [buildActionInput, hv] at ha
    | ok u =>
      simp [buildActionInput, hv] at ha
      rw [← ha]
      by_cases hp : prm.param3 = some "true" <;> simp [hp]
  · intro ht
    refine ⟨({ type := ActionTy.toStr ActionTy.UNALLOCATE,
               allocationID := prm.target, poi := prm.param1,
               force := some (decide (prm.param2 = some "true")),
               source := source, reason := reason, status := status,
               priority := priority } : ActionInput), ?_⟩
    simp [buildActionInput, hvU ht]
  · intro ht hp
    refine ⟨({ type := ActionTy.toStr ActionTy.REALLOCATE,
               allocationID := prm.target, amount := prm.param1,
               poi := prm.param2,
               force := some (decide (prm.param3 = some "true")),
               source := source, reason := reason, status := status,
               priority := priority } : ActionInput), ?_⟩
    simp [buildActionInput, hvR ht hp]

/-- C10 witness at a concrete input: the fixture params carry
`param2 = "maybe"` and no `param3`; the UNALLOCATE build succeeds with
force false, and the REALLOCATE build succeeds with force false. -/
theorem buildActionInput_force_flag_witness :
    (∃ a, buildActionInput ActionTy.UNALLOCATE sampleParams "indexerCLI"
        "manual" ActionStatus.QUEUED 0 = Except.ok a ∧ a.force = some false)
      ∧ (∃ a, buildActionInput ActionTy.REALLOCATE sampleParams "indexerCLI"
        "manual" ActionStatus.QUEUED 0 = Except.ok a ∧
        a.force = some false) := by
  have h := buildActionInput_force_flag sampleParams "indexerCLI" "manual"
    ActionStatus.QUEUED 0
  obtain ⟨a, ha⟩ := h.2.2.1 (by decide)
  obtain ⟨b, hb⟩ := h.2.2.2 (by decide) (by decide)
  refine ⟨⟨a, ha, ?_⟩, ⟨b, hb, ?_⟩⟩
  · have := (h.1 a ha).2.mpr (by decide)
    exact this
  · have := (h.2.1 b hb).2.mpr (by decide)
    exact this

end Indexer
